import Mathlib

/-!
# gl-matrix, `mat2`: a shallow embedding of `src/mat2.c`

The C type `mat2` is a buffer of four `float`s, `vec2` one of two (`typedefs.h`,
which declares them, is not among the source files; the four-element,
column-major layout is the one every function of `mat2.c` indexes).  A buffer is
modelled by its contents, and a function that receives buffers by the contents
it leaves in every buffer it received, next to its return value when it has
one.  Two buffers passed to one call are distinct buffers.  The statements of a
C body are kept in their order, one `let` per statement.

The functions are written over any scalar type that has the operations they
use, and are read over two kinds of scalars.  Over an arbitrary field the
arithmetic is exact: rounding, overflow and the special values of `float` are
absent.  Over `Flt` the scalars are the values of a `float`, NaN, the
infinities and the two zeros included, with the IEEE 754 rules for them and for
overflow; only the rounding of an in-range result is left out.  The operator
`==` is `FloatEq.feq`: equality on exact scalars, the IEEE comparison on `Flt`.
`mat2_invert`, which divides, is read over a field only.

Two further embeddings of the same source serve the claims the first cannot
state.  `mat2_invert_checked` makes the division fallible, so that "never
divides by zero" is a property of the function.  The namespace `Heap` holds the
two-operand functions over one memory of scalars, the arguments being the
addresses the C pointers hold, so that which cells a call writes, and what
happens when the buffers overlap, is a property of the function.

`sinf` and `cosf` come from `<math.h>`; they are parameters of the two functions
that call them.
-/

namespace GlMatrix

/-- Modelled from the spec: the type `mat2`, declared in `typedefs.h`, which is
not among the source files.  A flat sequence of four scalars in column-major
order, indexed `m[col*2 + row]`: `e0 .. e3` are `dst[0] .. dst[3]`. -/
structure Mat2 (α : Type) where
  e0 : α
  e1 : α
  e2 : α
  e3 : α
deriving DecidableEq

/-- Modelled from the spec: the type `vec2`, declared in `typedefs.h`, which is
not among the source files.  A tuple of two scalars: `e0`, `e1` are `v[0]`,
`v[1]`. -/
structure Vec2 (α : Type) where
  e0 : α
  e1 : α
deriving DecidableEq

namespace Mat2

variable {α : Type}

/-- Read `dst[i]`. -/
def get (m : Mat2 α) (i : Fin 4) : α :=
  match i with
  | ⟨0, _⟩ => m.e0
  | ⟨1, _⟩ => m.e1
  | ⟨2, _⟩ => m.e2
  | ⟨_ + 3, _⟩ => m.e3

/-- Write `dst[i] = v`. -/
def set (m : Mat2 α) (i : Fin 4) (v : α) : Mat2 α :=
  match i with
  | ⟨0, _⟩ => { m with e0 := v }
  | ⟨1, _⟩ => { m with e1 := v }
  | ⟨2, _⟩ => { m with e2 := v }
  | ⟨_ + 3, _⟩ => { m with e3 := v }

/-- The buffer index of the entry in row `r` and column `c` of the column-major
layout `m[col*2 + row]`. -/
def idx (r c : Fin 2) : Fin 4 :=
  ⟨c.val * 2 + r.val, by omega⟩

/-- The entry in row `r`, column `c`. -/
def entry (m : Mat2 α) (r c : Fin 2) : α :=
  m.get (idx r c)

/-- The 2×2 matrix a buffer stores in column-major order. -/
def toMatrix (m : Mat2 α) : Matrix (Fin 2) (Fin 2) α :=
  Matrix.of fun r c => m.entry r c

end Mat2

namespace Vec2

variable {α : Type}

/-- Read `v[i]`. -/
def get (v : Vec2 α) (i : Fin 2) : α :=
  match i with
  | ⟨0, _⟩ => v.e0
  | ⟨_ + 1, _⟩ => v.e1

end Vec2

/-- The comparison `==` of C on the scalars. -/
class FloatEq (α : Type) where
  /-- The value of `x == y`. -/
  feq : α → α → Bool

/-- On exact scalars, `==` decides equality. -/
instance (priority := low) instFloatEqOfDecidableEq {α : Type} [DecidableEq α] : FloatEq α :=
  ⟨fun x y => decide (x = y)⟩

/-- The values of a C `float` under IEEE 754: not-a-number, the two
infinities, the two zeros (`nzero` is `-0.0`, `fin 0` is `+0.0`) and the finite
numbers.  Every `float` is one of these values.  The arithmetic below follows
IEEE 754 on the special values, on the sign of a zero result and on overflow;
the rounding of a finite result that is in range is not modelled (it is kept
exact). -/
inductive Flt where
  | nan
  | pinf
  | ninf
  | nzero
  | fin (q : ℚ)
deriving DecidableEq

namespace Flt

/-- Whether the value is a NaN. -/
def isNan : Flt → Bool
  | nan => true
  | _ => false

/-- Whether the value is one of the two infinities. -/
def isInf : Flt → Bool
  | pinf => true
  | ninf => true
  | _ => false

/-- Whether the value is one of the two zeros. -/
def isZero : Flt → Bool
  | nzero => true
  | fin q => decide (q = 0)
  | _ => false

/-- The sign bit: set on `-inf`, `-0.0` and the negative numbers. -/
def signBit : Flt → Bool
  | ninf => true
  | nzero => true
  | fin q => decide (q < 0)
  | _ => false

/-- The number a finite value stands for (`0` for both zeros). -/
def toRat : Flt → ℚ
  | fin q => q
  | _ => 0

/-- The magnitude from which a result rounds to infinity: `FLT_MAX` plus half a
unit in its last place. -/
def overflowAt : ℚ :=
  2 ^ 128 - 2 ^ 103

/-- The infinity of the given sign. -/
def inf (neg : Bool) : Flt :=
  if neg then ninf else pinf

/-- The `float` for the exact result `q` of an operation on finite operands:
an infinity when `q` is out of range, and a zero of sign `neg` when `q` is
zero. -/
def round (neg : Bool) (q : ℚ) : Flt :=
  if q = 0 then (if neg then nzero else fin 0)
  else if overflowAt ≤ q then pinf
  else if q ≤ -overflowAt then ninf
  else fin q

/-- Unary minus: flips the sign, also of a zero and of an infinity. -/
def neg : Flt → Flt
  | nan => nan
  | pinf => ninf
  | ninf => pinf
  | nzero => fin 0
  | fin q => if q = 0 then nzero else fin (-q)

/-- The product: NaN from a NaN operand and from infinity times zero; the sign of
the result is the exclusive or of the signs. -/
def mul (x y : Flt) : Flt :=
  if x.isNan || y.isNan then nan
  else if x.isInf || y.isInf then
    (if x.isZero || y.isZero then nan else inf (x.signBit != y.signBit))
  else round (x.signBit != y.signBit) (x.toRat * y.toRat)

/-- The sum: NaN from a NaN operand and from infinities of opposite sign; an
exact zero sum is `+0.0` unless both operands carry the sign bit. -/
def add (x y : Flt) : Flt :=
  if x.isNan || y.isNan then nan
  else if x.isInf then (if y.isInf && (x.signBit != y.signBit) then nan else x)
  else if y.isInf then y
  else round (x.signBit && y.signBit) (x.toRat + y.toRat)

/-- The difference `x - y` is `x + (-y)`. -/
def sub (x y : Flt) : Flt :=
  add x (neg y)

/-- The comparison `x == y`: false when either is a NaN, true on two zeros of
any sign, and otherwise whether the values are the same. -/
def feq (x y : Flt) : Bool :=
  if x.isNan || y.isNan then false
  else if x.isZero && y.isZero then true
  else decide (x = y)

/-- A finite `float`: a zero, or a number below the overflow magnitude. -/
def Finite : Flt → Prop
  | nzero => True
  | fin q => -overflowAt < q ∧ q < overflowAt
  | _ => False

end Flt

instance instZeroFlt : Zero Flt := ⟨Flt.fin 0⟩

instance instOneFlt : One Flt := ⟨Flt.fin 1⟩

instance instNegFlt : Neg Flt := ⟨Flt.neg⟩

instance instAddFlt : Add Flt := ⟨Flt.add⟩

instance instSubFlt : Sub Flt := ⟨Flt.sub⟩

instance instMulFlt : Mul Flt := ⟨Flt.mul⟩

instance instFloatEqFlt : FloatEq Flt := ⟨Flt.feq⟩

section Source

variable {α : Type} [Zero α] [One α] [Add α] [Sub α] [Mul α] [Neg α] [Div α]
  [DecidableEq α] [FloatEq α]

/-- `void mat2_identity(mat2 dst)`, mat2.c:4-7. -/
def mat2_identity (dst : Mat2 α) : Mat2 α :=
  let dst := dst.set 0 1
  let dst := dst.set 3 1
  dst

/-- `void mat2_copy(mat2 dst, mat2 src)`, mat2.c:9-14. -/
def mat2_copy (dst src : Mat2 α) : Mat2 α × Mat2 α :=
  let dst := dst.set 0 (src.get 0)
  let dst := dst.set 1 (src.get 1)
  let dst := dst.set 2 (src.get 2)
  let dst := dst.set 3 (src.get 3)
  (dst, src)

/-- `void mat2_transpose(mat2 dst)`, mat2.c:16-20. -/
def mat2_transpose (dst : Mat2 α) : Mat2 α :=
  let a1 := dst.get 1
  let dst := dst.set 1 (dst.get 2)
  let dst := dst.set 2 a1
  dst

/-- `void mat2_invert(mat2 dst)`, mat2.c:22-39.  `!det` is `det == 0`. -/
def mat2_invert (dst : Mat2 α) : Mat2 α :=
  let a0 := dst.get 0
  let a1 := dst.get 1
  let a2 := dst.get 2
  let a3 := dst.get 3
  let det := (a0 * a3) - (a2 * a1)
  if det = 0 then
    dst
  else
    let det := 1 / det
    let dst := dst.set 0 (a3 * det)
    let dst := dst.set 1 (-a1 * det)
    let dst := dst.set 2 (-a2 * det)
    let dst := dst.set 3 (a0 * det)
    dst

/-- `void mat2_adjoint(mat2 dst)`, mat2.c:41-47. -/
def mat2_adjoint (dst : Mat2 α) : Mat2 α :=
  let a0 := dst.get 0
  let dst := dst.set 0 (dst.get 3)
  let dst := dst.set 1 (-dst.get 1)
  let dst := dst.set 2 (-dst.get 2)
  let dst := dst.set 3 a0
  dst

/-- `float mat2_determinant(mat2 dst)`, mat2.c:49-51: the returned value and the
buffer after the call. -/
def mat2_determinant (dst : Mat2 α) : α × Mat2 α :=
  (dst.get 0 * dst.get 3 - dst.get 2 * dst.get 1, dst)

/-- `void mat2_multiply(mat2 dst, mat2 op)`, mat2.c:53-60. -/
def mat2_multiply (dst op : Mat2 α) : Mat2 α × Mat2 α :=
  let a0 := dst.get 0
  let a1 := dst.get 1
  let a2 := dst.get 2
  let a3 := dst.get 3
  let b0 := op.get 0
  let b1 := op.get 1
  let b2 := op.get 2
  let b3 := op.get 3
  let dst := dst.set 0 (a0 * b0 + a2 * b1)
  let dst := dst.set 1 (a1 * b0 + a3 * b1)
  let dst := dst.set 2 (a0 * b2 + a2 * b3)
  let dst := dst.set 3 (a1 * b2 + a3 * b3)
  (dst, op)

/-- `void mat2_rotate(mat2 dst, float rad)`, mat2.c:62-70. -/
def mat2_rotate (sinf cosf : α → α) (dst : Mat2 α) (rad : α) : Mat2 α :=
  let a0 := dst.get 0
  let a1 := dst.get 1
  let a2 := dst.get 2
  let a3 := dst.get 3
  let s := sinf rad
  let c := cosf rad
  let dst := dst.set 0 ((a0 * c) + (a2 * s))
  let dst := dst.set 1 ((a1 * c) + (a3 * s))
  let dst := dst.set 2 ((a0 * -s) + (a2 * c))
  let dst := dst.set 3 ((a1 * -s) + (a3 * c))
  dst

/-- `void mat2_scale(mat2 dst, vec2 v)`, mat2.c:72-79. -/
def mat2_scale (dst : Mat2 α) (v : Vec2 α) : Mat2 α × Vec2 α :=
  let a0 := dst.get 0
  let a1 := dst.get 1
  let a2 := dst.get 2
  let a3 := dst.get 3
  let v0 := v.get 0
  let v1 := v.get 1
  let dst := dst.set 0 (a0 * v0)
  let dst := dst.set 1 (a1 * v0)
  let dst := dst.set 2 (a2 * v1)
  let dst := dst.set 3 (a3 * v1)
  (dst, v)

/-- `void mat2_fromRotation(mat2 dst, float rad)`, mat2.c:81-88. -/
def mat2_fromRotation (sinf cosf : α → α) (dst : Mat2 α) (rad : α) : Mat2 α :=
  let s := sinf rad
  let c := cosf rad
  let dst := dst.set 0 c
  let dst := dst.set 1 s
  let dst := dst.set 2 (-s)
  let dst := dst.set 3 c
  dst

/-- `void mat2_fromScaling(mat2 dst, vec2 v)`, mat2.c:90-95. -/
def mat2_fromScaling (dst : Mat2 α) (v : Vec2 α) : Mat2 α × Vec2 α :=
  let dst := dst.set 0 (v.get 0)
  let dst := dst.set 1 0
  let dst := dst.set 2 0
  let dst := dst.set 3 (v.get 1)
  (dst, v)

/-- `void mat2_add(mat2 dst, mat2 b)`, mat2.c:97-102. -/
def mat2_add (dst b : Mat2 α) : Mat2 α × Mat2 α :=
  let dst := dst.set 0 (dst.get 0 + b.get 0)
  let dst := dst.set 1 (dst.get 1 + b.get 1)
  let dst := dst.set 2 (dst.get 2 + b.get 2)
  let dst := dst.set 3 (dst.get 3 + b.get 3)
  (dst, b)

/-- `void mat2_subtract(mat2 dst, mat2 b)`, mat2.c:104-109. -/
def mat2_subtract (dst b : Mat2 α) : Mat2 α × Mat2 α :=
  let dst := dst.set 0 (dst.get 0 - b.get 0)
  let dst := dst.set 1 (dst.get 1 - b.get 1)
  let dst := dst.set 2 (dst.get 2 - b.get 2)
  let dst := dst.set 3 (dst.get 3 - b.get 3)
  (dst, b)

/-- `uint8_t mat2_equals(mat2 a, mat2 b)`, mat2.c:111-113: the value of the `&&`
chain of `==` comparisons (`1` or `0`) and both buffers after the call. -/
def mat2_equals (a b : Mat2 α) : Nat × Mat2 α × Mat2 α :=
  (if FloatEq.feq (a.get 0) (b.get 0) && FloatEq.feq (a.get 1) (b.get 1)
      && FloatEq.feq (a.get 2) (b.get 2) && FloatEq.feq (a.get 3) (b.get 3)
    then 1 else 0, a, b)

/-- `void mat2_multiplyScalar(mat2 dst, float b)`, mat2.c:115-120. -/
def mat2_multiplyScalar (dst : Mat2 α) (b : α) : Mat2 α :=
  let dst := dst.set 0 (dst.get 0 * b)
  let dst := dst.set 1 (dst.get 1 * b)
  let dst := dst.set 2 (dst.get 2 * b)
  let dst := dst.set 3 (dst.get 3 * b)
  dst

/-- `void mat2_multiplyScalarAndAdd(mat2 dst, mat2 b, float scale)`,
mat2.c:122-127. -/
def mat2_multiplyScalarAndAdd (dst b : Mat2 α) (scale : α) : Mat2 α × Mat2 α :=
  let dst := dst.set 0 (dst.get 0 + (b.get 0 * scale))
  let dst := dst.set 1 (dst.get 1 + (b.get 1 * scale))
  let dst := dst.set 2 (dst.get 2 + (b.get 2 * scale))
  let dst := dst.set 3 (dst.get 3 + (b.get 3 * scale))
  (dst, b)

end Source

section Checked

variable {α : Type} [Field α] [DecidableEq α]

/-- The division `x / y` as an operation that fails on a zero divisor. -/
def checkedDiv (x y : α) : Option α :=
  if y = 0 then none else some (x / y)

/-- `void mat2_invert(mat2 dst)`, mat2.c:22-39, with the division of line 33
fallible: `none` when a division by zero is reached, `some` of the buffer after
the call when the function returns. -/
def mat2_invert_checked (dst : Mat2 α) : Option (Mat2 α) :=
  let a0 := dst.get 0
  let a1 := dst.get 1
  let a2 := dst.get 2
  let a3 := dst.get 3
  let det := (a0 * a3) - (a2 * a1)
  if det = 0 then
    some dst
  else
    (checkedDiv 1 det).bind fun det =>
    let dst := dst.set 0 (a3 * det)
    let dst := dst.set 1 (-a1 * det)
    let dst := dst.set 2 (-a2 * det)
    let dst := dst.set 3 (a0 * det)
    some dst

end Checked

/-- A memory of scalars, one cell per address; addresses count `float`s, so the
element `p[i]` of the buffer at address `p` is the cell `p + i`. -/
abbrev Mem (α : Type) := Nat → α

namespace Mem

variable {α : Type}

/-- Store `v` in the cell `a`. -/
def write (mem : Mem α) (a : Nat) (v : α) : Mem α :=
  fun x => if x = a then v else mem x

/-- The contents of the four cells of the `mat2` at address `p`. -/
def load4 (mem : Mem α) (p : Nat) : Mat2 α :=
  ⟨mem (p + 0), mem (p + 1), mem (p + 2), mem (p + 3)⟩

/-- The contents of the two cells of the `vec2` at address `p`. -/
def load2 (mem : Mem α) (p : Nat) : Vec2 α :=
  ⟨mem (p + 0), mem (p + 1)⟩

/-- Going from `mem` to `mem'`, only the four cells of the `mat2` at address
`dst` may have changed: every cell outside `dst .. dst + 3` holds what it
held. -/
def WritesOnly (mem mem' : Mem α) (dst : Nat) : Prop :=
  ∀ a : Nat, (a < dst ∨ dst + 4 ≤ a) → mem' a = mem a

/-- A memory to evaluate on: the cell `a` holds the number `a`. -/
def ramp : Mem ℚ :=
  fun a => (a : ℚ)

end Mem

namespace Heap

variable {α : Type} [Field α]

/-- `void mat2_copy(mat2 dst, mat2 src)`, mat2.c:9-14, over a memory. -/
def mat2_copy (mem : Mem α) (dst src : Nat) : Mem α :=
  let mem := mem.write (dst + 0) (mem (src + 0))
  let mem := mem.write (dst + 1) (mem (src + 1))
  let mem := mem.write (dst + 2) (mem (src + 2))
  let mem := mem.write (dst + 3) (mem (src + 3))
  mem

/-- `void mat2_multiply(mat2 dst, mat2 op)`, mat2.c:53-60, over a memory. -/
def mat2_multiply (mem : Mem α) (dst op : Nat) : Mem α :=
  let a0 := mem (dst + 0)
  let a1 := mem (dst + 1)
  let a2 := mem (dst + 2)
  let a3 := mem (dst + 3)
  let b0 := mem (op + 0)
  let b1 := mem (op + 1)
  let b2 := mem (op + 2)
  let b3 := mem (op + 3)
  let mem := mem.write (dst + 0) (a0 * b0 + a2 * b1)
  let mem := mem.write (dst + 1) (a1 * b0 + a3 * b1)
  let mem := mem.write (dst + 2) (a0 * b2 + a2 * b3)
  let mem := mem.write (dst + 3) (a1 * b2 + a3 * b3)
  mem

/-- `void mat2_scale(mat2 dst, vec2 v)`, mat2.c:72-79, over a memory. -/
def mat2_scale (mem : Mem α) (dst v : Nat) : Mem α :=
  let a0 := mem (dst + 0)
  let a1 := mem (dst + 1)
  let a2 := mem (dst + 2)
  let a3 := mem (dst + 3)
  let v0 := mem (v + 0)
  let v1 := mem (v + 1)
  let mem := mem.write (dst + 0) (a0 * v0)
  let mem := mem.write (dst + 1) (a1 * v0)
  let mem := mem.write (dst + 2) (a2 * v1)
  let mem := mem.write (dst + 3) (a3 * v1)
  mem

/-- `void mat2_add(mat2 dst, mat2 b)`, mat2.c:97-102, over a memory. -/
def mat2_add (mem : Mem α) (dst b : Nat) : Mem α :=
  let mem := mem.write (dst + 0) (mem (dst + 0) + mem (b + 0))
  let mem := mem.write (dst + 1) (mem (dst + 1) + mem (b + 1))
  let mem := mem.write (dst + 2) (mem (dst + 2) + mem (b + 2))
  let mem := mem.write (dst + 3) (mem (dst + 3) + mem (b + 3))
  mem

/-- `void mat2_subtract(mat2 dst, mat2 b)`, mat2.c:104-109, over a memory. -/
def mat2_subtract (mem : Mem α) (dst b : Nat) : Mem α :=
  let mem := mem.write (dst + 0) (mem (dst + 0) - mem (b + 0))
  let mem := mem.write (dst + 1) (mem (dst + 1) - mem (b + 1))
  let mem := mem.write (dst + 2) (mem (dst + 2) - mem (b + 2))
  let mem := mem.write (dst + 3) (mem (dst + 3) - mem (b + 3))
  mem

/-- `void mat2_multiplyScalarAndAdd(mat2 dst, mat2 b, float scale)`,
mat2.c:122-127, over a memory. -/
def mat2_multiplyScalarAndAdd (mem : Mem α) (dst b : Nat) (scale : α) : Mem α :=
  let mem := mem.write (dst + 0) (mem (dst + 0) + (mem (b + 0) * scale))
  let mem := mem.write (dst + 1) (mem (dst + 1) + (mem (b + 1) * scale))
  let mem := mem.write (dst + 2) (mem (dst + 2) + (mem (b + 2) * scale))
  let mem := mem.write (dst + 3) (mem (dst + 3) + (mem (b + 3) * scale))
  mem

end Heap

/-! ## Theorems -/

/-! ### The arithmetic of `Flt` -/

theorem Flt.zero_def : (0 : Flt) = Flt.fin 0 := rfl

theorem Flt.one_def : (1 : Flt) = Flt.fin 1 := rfl

theorem Flt.add_def (x y : Flt) : x + y = Flt.add x y := rfl

theorem Flt.mul_def (x y : Flt) : x * y = Flt.mul x y := rfl

theorem Flt.feq_def (x y : Flt) : FloatEq.feq x y = Flt.feq x y := rfl

theorem Flt.overflowAt_pos : (0 : ℚ) < Flt.overflowAt := by
  norm_num [Flt.overflowAt]

/-- A finite value times zero is a zero, on either side. -/
theorem Flt.isZero_mul_zero (y : Flt) (hy : y.Finite) :
    (y * 0).isZero = true ∧ (0 * y).isZero = true := by
  cases y with
  | nan => exact absurd hy (by simp [Flt.Finite])
  | pinf => exact absurd hy (by simp [Flt.Finite])
  | ninf => exact absurd hy (by simp [Flt.Finite])
  | nzero =>
    simp [Flt.mul_def, Flt.zero_def, Flt.mul, Flt.isNan, Flt.isInf, Flt.isZero, Flt.signBit,
      Flt.toRat, Flt.round]
  | fin q =>
    simp only [Flt.mul_def, Flt.zero_def, Flt.mul, Flt.isNan, Flt.isInf, Flt.signBit,
      Flt.toRat, Flt.round, mul_zero, zero_mul, Bool.or_self, Bool.false_eq_true, if_false,
      if_true]
    constructor <;> split_ifs <;> simp [Flt.isZero]

/-- Adding a zero to an infinity or to a finite value gives a value that
compares equal to it, on either side of the sum and of the comparison. -/
theorem Flt.feq_add_zero (p z : Flt) (hz : z.isZero = true)
    (hp : p.isInf = true ∨ p.Finite) :
    FloatEq.feq (p + z) p = true ∧ FloatEq.feq (z + p) p = true ∧
    FloatEq.feq p (p + z) = true ∧ FloatEq.feq p (z + p) = true := by
  have ho := Flt.overflowAt_pos
  cases z with
  | nan => simp [Flt.isZero] at hz
  | pinf => simp [Flt.isZero] at hz
  | ninf => simp [Flt.isZero] at hz
  | nzero =>
    cases p with
    | nan => simp [Flt.isInf, Flt.Finite] at hp
    | pinf => simp [Flt.feq_def, Flt.add_def, Flt.add, Flt.feq, Flt.isNan, Flt.isInf, Flt.isZero]
    | ninf => simp [Flt.feq_def, Flt.add_def, Flt.add, Flt.feq, Flt.isNan, Flt.isInf, Flt.isZero]
    | nzero =>
      simp [Flt.feq_def, Flt.add_def, Flt.add, Flt.feq, Flt.isNan, Flt.isInf, Flt.isZero,
        Flt.signBit, Flt.toRat, Flt.round]
    | fin q =>
      simp only [Flt.isInf, Flt.Finite, false_or, Bool.false_eq_true] at hp
      by_cases hq : q = 0
      · subst hq
        simp [Flt.feq_def, Flt.add_def, Flt.add, Flt.feq, Flt.isNan, Flt.isInf, Flt.isZero,
          Flt.signBit, Flt.toRat, Flt.round]
      · have h1 : ¬ Flt.overflowAt ≤ q := by linarith [hp.2]
        have h2 : ¬ q ≤ -Flt.overflowAt := by linarith [hp.1]
        simp [Flt.feq_def, Flt.add_def, Flt.add, Flt.feq, Flt.isNan, Flt.isInf, Flt.isZero,
          Flt.signBit, Flt.toRat, Flt.round, hq, h1, h2]
  | fin r =>
    simp only [Flt.isZero, decide_eq_true_eq] at hz
    subst hz
    cases p with
    | nan => simp [Flt.isInf, Flt.Finite] at hp
    | pinf => simp [Flt.feq_def, Flt.add_def, Flt.add, Flt.feq, Flt.isNan, Flt.isInf, Flt.isZero]
    | ninf => simp [Flt.feq_def, Flt.add_def, Flt.add, Flt.feq, Flt.isNan, Flt.isInf, Flt.isZero]
    | nzero =>
      simp [Flt.feq_def, Flt.add_def, Flt.add, Flt.feq, Flt.isNan, Flt.isInf, Flt.isZero,
        Flt.signBit, Flt.toRat, Flt.round]
    | fin q =>
      simp only [Flt.isInf, Flt.Finite, false_or, Bool.false_eq_true] at hp
      by_cases hq : q = 0
      · subst hq
        simp [Flt.feq_def, Flt.add_def, Flt.add, Flt.feq, Flt.isNan, Flt.isInf, Flt.isZero,
          Flt.signBit, Flt.toRat, Flt.round]
      · have h1 : ¬ Flt.overflowAt ≤ q := by linarith [hp.2]
        have h2 : ¬ q ≤ -Flt.overflowAt := by linarith [hp.1]
        simp [Flt.feq_def, Flt.add_def, Flt.add, Flt.feq, Flt.isNan, Flt.isInf, Flt.isZero,
          Flt.signBit, Flt.toRat, Flt.round, hq, h1, h2]

/-- The product of two finite values is an infinity (on overflow) or finite. -/
theorem Flt.mul_finite (x y : Flt) (hx : x.Finite) (hy : y.Finite) :
    (x * y).isInf = true ∨ (x * y).Finite := by
  have ho := Flt.overflowAt_pos
  have key : ∀ (b : Bool) (q : ℚ), (Flt.round b q).isInf = true ∨ (Flt.round b q).Finite := by
    intro b q
    unfold Flt.round
    split_ifs <;> simp [Flt.isInf, Flt.Finite] <;>
      first
        | linarith
        | (constructor <;> linarith)
  cases x <;> cases y <;> simp [Flt.Finite] at hx hy <;>
    simp [Flt.mul_def, Flt.mul, Flt.isNan, Flt.isInf] <;> exact key _ _

/-- Multiplying a finite value by one gives it back, on either side. -/
theorem Flt.mul_one_finite (x : Flt) (hx : x.Finite) : x * 1 = x ∧ 1 * x = x := by
  cases x with
  | nan => simp [Flt.Finite] at hx
  | pinf => simp [Flt.Finite] at hx
  | ninf => simp [Flt.Finite] at hx
  | nzero =>
    simp [Flt.mul_def, Flt.one_def, Flt.mul, Flt.isNan, Flt.isInf, Flt.isZero, Flt.signBit,
      Flt.toRat, Flt.round]
  | fin q =>
    simp only [Flt.Finite] at hx
    have h1 : ¬ Flt.overflowAt ≤ q := by linarith [hx.2]
    have h2 : ¬ q ≤ -Flt.overflowAt := by linarith [hx.1]
    by_cases hq : q = 0
    · subst hq
      simp [Flt.mul_def, Flt.one_def, Flt.mul, Flt.isNan, Flt.isInf, Flt.isZero, Flt.signBit,
        Flt.toRat, Flt.round]
    · simp [Flt.mul_def, Flt.one_def, Flt.mul, Flt.isNan, Flt.isInf, Flt.isZero, Flt.signBit,
        Flt.toRat, Flt.round, hq, h1, h2]

/-- The comparison `==` on `Flt`: true exactly on two values that are not NaN
and are the same or both zeros. -/
theorem Flt.feq_iff (x y : Flt) :
    FloatEq.feq x y = true ↔
      x ≠ Flt.nan ∧ y ≠ Flt.nan ∧ (x = y ∨ (x.isZero = true ∧ y.isZero = true)) := by
  cases x <;> cases y <;> simp [Flt.feq_def, Flt.feq, Flt.isNan, Flt.isZero]
  exact or_comm

/-! ### The functions of `mat2.c` -/


/-- C1: `mat2_identity` does not write `dst[1]` and `dst[2]`, so the determinant
read after it depends on what the buffer held.  On the buffer `[0, 1, 1, 0]` the
call leaves `[1, 1, 1, 1]` and `mat2_determinant` returns `0`, not `1`. -/
theorem mat2_identity_determinant_stale_buffer :
    mat2_identity (⟨0, 1, 1, 0⟩ : Mat2 ℚ) = ⟨1, 1, 1, 1⟩ ∧
    (mat2_determinant (mat2_identity (⟨0, 1, 1, 0⟩ : Mat2 ℚ))).1 = 0 ∧
    (mat2_determinant (mat2_identity (⟨0, 1, 1, 0⟩ : Mat2 ℚ))).1 ≠ 1 := by
  refine ⟨rfl, ?_, ?_⟩ <;> simp [mat2_determinant, mat2_identity, Mat2.set, Mat2.get]

/-- C2: on the buffer `[5, 2, 3, 7]`, `mat2_identity` leaves `[1, 2, 3, 1]`: the
off-diagonal elements keep their old values and the buffer is not the identity
matrix `[1, 0, 0, 1]`. -/
theorem mat2_identity_keeps_off_diagonal :
    mat2_identity (⟨5, 2, 3, 7⟩ : Mat2 ℚ) = ⟨1, 2, 3, 1⟩ ∧
    mat2_identity (⟨5, 2, 3, 7⟩ : Mat2 ℚ) ≠ ⟨1, 0, 0, 1⟩ := by
  refine ⟨rfl, ?_⟩
  simp [mat2_identity, Mat2.set]

/-- C3: when the determinant `M[0]*M[3] - M[2]*M[1]` is zero, `mat2_invert`
leaves the buffer as it was: the buffers are equal, element by element. -/
theorem mat2_invert_singular_unchanged {α : Type} [Field α] [DecidableEq α]
    (M : Mat2 α) (h : M.get 0 * M.get 3 - M.get 2 * M.get 1 = 0) :
    mat2_invert M = M ∧ ∀ i : Fin 4, (mat2_invert M).get i = M.get i := by
  have hM : mat2_invert M = M := by simp [mat2_invert, h]
  exact ⟨hM, fun i => by rw [hM]⟩

/-- The zero matrix `[0, 0, 0, 0]` of the scenario has determinant zero and is
left unchanged. -/
theorem mat2_invert_singular_unchanged_witness :
    (⟨0, 0, 0, 0⟩ : Mat2 ℚ).get 0 * (⟨0, 0, 0, 0⟩ : Mat2 ℚ).get 3
      - (⟨0, 0, 0, 0⟩ : Mat2 ℚ).get 2 * (⟨0, 0, 0, 0⟩ : Mat2 ℚ).get 1 = 0 ∧
    mat2_invert (⟨0, 0, 0, 0⟩ : Mat2 ℚ) = ⟨0, 0, 0, 0⟩ :=
  ⟨by simp [Mat2.get], (mat2_invert_singular_unchanged _ (by simp [Mat2.get])).1⟩

/-- C4: when the determinant is not zero, the buffer `mat2_invert` leaves is a
two-sided inverse: `mat2_multiply` of `M` by it and of it by `M` both leave
`[1, 0, 0, 1]` in the destination. -/
theorem mat2_invert_two_sided_inverse {α : Type} [Field α] [DecidableEq α]
    (M : Mat2 α) (h : M.get 0 * M.get 3 - M.get 2 * M.get 1 ≠ 0) :
    (mat2_multiply M (mat2_invert M)).1 = ⟨1, 0, 0, 1⟩ ∧
    (mat2_multiply (mat2_invert M) M).1 = ⟨1, 0, 0, 1⟩ := by
  obtain ⟨a0, a1, a2, a3⟩ := M
  simp only [Mat2.get] at h
  simp only [mat2_multiply, mat2_invert, Mat2.get, Mat2.set, if_neg h, Mat2.mk.injEq]
  refine ⟨⟨?_, ?_, ?_, ?_⟩, ⟨?_, ?_, ?_, ?_⟩⟩ <;> field_simp <;> ring

/-- The matrix `[1, 2, 3, 4]` has determinant `-2`; its inverse multiplies with
it to the identity on both sides. -/
theorem mat2_invert_two_sided_inverse_witness :
    (⟨1, 2, 3, 4⟩ : Mat2 ℚ).get 0 * (⟨1, 2, 3, 4⟩ : Mat2 ℚ).get 3
      - (⟨1, 2, 3, 4⟩ : Mat2 ℚ).get 2 * (⟨1, 2, 3, 4⟩ : Mat2 ℚ).get 1 ≠ 0 ∧
    (mat2_multiply (⟨1, 2, 3, 4⟩ : Mat2 ℚ) (mat2_invert ⟨1, 2, 3, 4⟩)).1 = ⟨1, 0, 0, 1⟩ ∧
    (mat2_multiply (mat2_invert (⟨1, 2, 3, 4⟩ : Mat2 ℚ)) ⟨1, 2, 3, 4⟩).1 = ⟨1, 0, 0, 1⟩ :=
  ⟨by norm_num [Mat2.get], mat2_invert_two_sided_inverse _ (by norm_num [Mat2.get])⟩

/-- C5: `mat2_multiply(A, B)` leaves in `A` the product `A·B` of the matrices
stored column-major: the entry in row `r`, column `c` of the result is
`A(r,0)*B(0,c) + A(r,1)*B(1,c)` over the values `A` held before the call, which
is the matrix product of the two stored matrices. -/
theorem mat2_multiply_is_product {α : Type} [Field α] (A B : Mat2 α) :
    (∀ r c : Fin 2, (mat2_multiply A B).1.entry r c
      = A.entry r 0 * B.entry 0 c + A.entry r 1 * B.entry 1 c) ∧
    (mat2_multiply A B).1.toMatrix = A.toMatrix * B.toMatrix := by
  have h : ∀ r c : Fin 2, (mat2_multiply A B).1.entry r c
      = A.entry r 0 * B.entry 0 c + A.entry r 1 * B.entry 1 c := by
    intro r c
    fin_cases r <;> fin_cases c <;> rfl
  refine ⟨h, ?_⟩
  ext r c
  simp [Mat2.toMatrix, Matrix.mul_apply, Fin.sum_univ_two, h]

/-- C6: `mat2_determinant` returns `M[0]*M[3] - M[2]*M[1]` and leaves the buffer
as it was; the value is the determinant of the matrix stored column-major. -/
theorem mat2_determinant_spec {α : Type} [Field α] (M : Mat2 α) :
    mat2_determinant M = (M.get 0 * M.get 3 - M.get 2 * M.get 1, M) ∧
    (mat2_determinant M).1 = M.toMatrix.det := by
  refine ⟨rfl, ?_⟩
  rw [Matrix.det_fin_two]
  rfl

/-- C8: on the buffer `[0, 1, 1, 0]`, `mat2_identity` then `mat2_rotate` leaves
`[c+s, c+s, -s+c, -s+c]` while `mat2_fromRotation` leaves `[c, s, -s, c]`, with
`s` and `c` the sine and cosine of the angle: the two buffers agree only when
both vanish, so not at `rad = 0`, where they are `[1, 1, 1, 1]` and
`[1, 0, 0, 1]`. -/
theorem mat2_fromRotation_vs_identity_rotate {α : Type} [Field α]
    (sinf cosf : α → α) (rad : α) :
    mat2_rotate sinf cosf (mat2_identity ⟨0, 1, 1, 0⟩) rad
      = ⟨cosf rad + sinf rad, cosf rad + sinf rad,
          -sinf rad + cosf rad, -sinf rad + cosf rad⟩ ∧
    mat2_fromRotation sinf cosf ⟨0, 1, 1, 0⟩ rad
      = ⟨cosf rad, sinf rad, -sinf rad, cosf rad⟩ ∧
    (mat2_fromRotation sinf cosf ⟨0, 1, 1, 0⟩ rad
        = mat2_rotate sinf cosf (mat2_identity ⟨0, 1, 1, 0⟩) rad
      ↔ sinf rad = 0 ∧ cosf rad = 0) := by
  refine ⟨?_, rfl, ?_⟩
  · simp [mat2_rotate, mat2_identity, Mat2.get, Mat2.set]
  · simp only [mat2_rotate, mat2_fromRotation, mat2_identity, Mat2.get, Mat2.set,
      Mat2.mk.injEq]
    constructor
    · rintro ⟨h0, h1, -, -⟩
      have hs : sinf rad = 0 := by linear_combination -h0
      have hc : cosf rad = 0 := by linear_combination -h1
      exact ⟨hs, hc⟩
    · rintro ⟨hs, hc⟩
      simp [hs, hc]

/-- C9: on the buffer `[0, 1, 1, 0]`, `mat2_identity` then `mat2_scale` leaves
`[v0, v0, v1, v1]` while `mat2_fromScaling` leaves `[v0, 0, 0, v1]`: the two
buffers agree only for the zero vector, so not for `v = [2, 3]`. -/
theorem mat2_fromScaling_vs_identity_scale {α : Type} [Field α] (v : Vec2 α) :
    (mat2_scale (mat2_identity ⟨0, 1, 1, 0⟩) v).1
      = ⟨v.get 0, v.get 0, v.get 1, v.get 1⟩ ∧
    (mat2_fromScaling ⟨0, 1, 1, 0⟩ v).1 = ⟨v.get 0, 0, 0, v.get 1⟩ ∧
    ((mat2_fromScaling ⟨0, 1, 1, 0⟩ v).1 = (mat2_scale (mat2_identity ⟨0, 1, 1, 0⟩) v).1
      ↔ v.get 0 = 0 ∧ v.get 1 = 0) := by
  refine ⟨?_, rfl, ?_⟩
  · simp [mat2_scale, mat2_identity, Mat2.get, Mat2.set]
  · simp only [mat2_scale, mat2_fromScaling, mat2_identity, Mat2.get, Mat2.set,
      Mat2.mk.injEq, one_mul]
    constructor
    · rintro ⟨-, h1, h2, -⟩
      exact ⟨h1.symm, h2.symm⟩
    · rintro ⟨h0, h1⟩
      simp [h0, h1]

/-- C10: `mat2_transpose` exchanges the elements at index 1 and 2 and leaves
those at index 0 and 3; the stored matrix becomes its transpose. -/
theorem mat2_transpose_spec {α : Type} (M : Mat2 α) :
    mat2_transpose M = ⟨M.get 0, M.get 2, M.get 1, M.get 3⟩ ∧
    (mat2_transpose M).toMatrix = M.toMatrix.transpose := by
  refine ⟨rfl, ?_⟩
  ext r c
  fin_cases r <;> fin_cases c <;> rfl

/-! ### Reading a memory after a write -/

theorem Mem.write_same {α : Type} (mem : Mem α) (a : Nat) (v : α) :
    mem.write a v a = v := by
  simp [Mem.write]

theorem Mem.write_other {α : Type} (mem : Mem α) (a x : Nat) (v : α) (h : x ≠ a) :
    mem.write a v x = mem x := by
  simp [Mem.write, h]

/-- C11, as stated, fails on `float`s: `mat2_equals` returns `0` on the buffer
`[NaN, 2, 3, 4]` against itself, where every element is the same, and `1` on
`[-0.0, 2, 3, 4]` against `[+0.0, 2, 3, 4]`, whose first elements differ. -/
theorem mat2_equals_nan_and_signed_zero :
    (mat2_equals (⟨.nan, .fin 2, .fin 3, .fin 4⟩ : Mat2 Flt)
      ⟨.nan, .fin 2, .fin 3, .fin 4⟩).1 = 0 ∧
    (mat2_equals (⟨.nzero, .fin 2, .fin 3, .fin 4⟩ : Mat2 Flt)
      ⟨.fin 0, .fin 2, .fin 3, .fin 4⟩).1 = 1 ∧
    (⟨.nzero, .fin 2, .fin 3, .fin 4⟩ : Mat2 Flt).get 0
      ≠ (⟨.fin 0, .fin 2, .fin 3, .fin 4⟩ : Mat2 Flt).get 0 := by
  refine ⟨?_, ?_, ?_⟩
  · simp [mat2_equals, Mat2.get, Flt.feq_def, Flt.feq, Flt.isNan]
  · simp [mat2_equals, Mat2.get, Flt.feq_def, Flt.feq, Flt.isNan, Flt.isZero]
  · simp [Mat2.get]

/-- C11, amended: `mat2_equals` returns `1` exactly when `a[i] == b[i]` holds
for every index `i` of `0..3`, and `0` exactly when it fails for some; both
buffers are left as they were.  On `float`s `x == y` holds exactly when neither
is a NaN and the two are the same value or both zeros; on exact scalars it is
equality. -/
theorem mat2_equals_spec {α : Type} [FloatEq α] (a b : Mat2 α) :
    ((mat2_equals a b).1 = 1 ↔ ∀ i : Fin 4, FloatEq.feq (a.get i) (b.get i) = true) ∧
    ((mat2_equals a b).1 = 0 ↔ ¬ ∀ i : Fin 4, FloatEq.feq (a.get i) (b.get i) = true) ∧
    (mat2_equals a b).2 = (a, b) ∧
    (∀ x y : Flt, FloatEq.feq x y = true ↔
      x ≠ Flt.nan ∧ y ≠ Flt.nan ∧ (x = y ∨ (x.isZero = true ∧ y.isZero = true))) ∧
    (∀ x y : ℚ, FloatEq.feq x y = true ↔ x = y) := by
  have key : (FloatEq.feq (a.get 0) (b.get 0) = true ∧ FloatEq.feq (a.get 1) (b.get 1) = true
        ∧ FloatEq.feq (a.get 2) (b.get 2) = true ∧ FloatEq.feq (a.get 3) (b.get 3) = true)
      ↔ ∀ i : Fin 4, FloatEq.feq (a.get i) (b.get i) = true := by
    constructor
    · rintro ⟨h0, h1, h2, h3⟩ i
      fin_cases i
      · exact h0
      · exact h1
      · exact h2
      · exact h3
    · intro h
      exact ⟨h 0, h 1, h 2, h 3⟩
  refine ⟨?_, ?_, rfl, Flt.feq_iff, ?_⟩
  · rw [← key]
    simp [mat2_equals, and_assoc]
  · rw [← key]
    simp [mat2_equals, and_assoc]
  · intro x y
    simp [FloatEq.feq]

/-- C12: with the division fallible (`checkedDiv` fails on every zero divisor),
`mat2_invert` still returns on every input, with the buffer the unchecked
function leaves: the division is reached with a non-zero divisor only. -/
theorem mat2_invert_checked_total {α : Type} [Field α] [DecidableEq α] (M : Mat2 α) :
    mat2_invert_checked M = some (mat2_invert M) ∧
    (mat2_invert_checked M).isSome = true ∧
    ∀ x : α, checkedDiv x 0 = none := by
  have h : mat2_invert_checked M = some (mat2_invert M) := by
    by_cases hd : M.get 0 * M.get 3 - M.get 2 * M.get 1 = 0
    · simp [mat2_invert_checked, mat2_invert, hd]
    · simp [mat2_invert_checked, mat2_invert, checkedDiv, hd]
  refine ⟨h, ?_, ?_⟩
  · rw [h]
    rfl
  · intro x
    simp [checkedDiv]

/-- C13: `mat2_multiplyScalarAndAdd` leaves `dst_old[i] + b[i]*scale` in every
element `i` of `dst`: on the contents of two buffers, and on a memory in which
the two buffers do not overlap. -/
theorem mat2_multiplyScalarAndAdd_spec {α : Type} [Field α] (mem : Mem α)
    (dst b : Nat) (scale : α) (h : b + 4 ≤ dst ∨ dst + 4 ≤ b) :
    (∀ (x y : Mat2 α) (i : Fin 4),
      (mat2_multiplyScalarAndAdd x y scale).1.get i = x.get i + y.get i * scale) ∧
    (∀ i : Nat, i < 4 →
      Heap.mat2_multiplyScalarAndAdd mem dst b scale (dst + i)
        = mem (dst + i) + mem (b + i) * scale) := by
  constructor
  · intro x y i
    fin_cases i <;> rfl
  · intro i hi
    have hcases : i = 0 ∨ i = 1 ∨ i = 2 ∨ i = 3 := by omega
    rcases hcases with rfl | rfl | rfl | rfl <;>
      simp (disch := omega) only [Heap.mat2_multiplyScalarAndAdd, Mem.write_same,
        Mem.write_other]

/-- On the memory whose cell `a` holds `a`, with `dst` at `0`, `b` at `4` and
scale `2`, the element `dst[1]` becomes `1 + 5 * 2 = 11`. -/
theorem mat2_multiplyScalarAndAdd_spec_witness :
    (4 + 4 ≤ 0 ∨ 0 + 4 ≤ 4) ∧
    Heap.mat2_multiplyScalarAndAdd Mem.ramp 0 4 2 (0 + 1) = 11 :=
  ⟨by decide,
    ((mat2_multiplyScalarAndAdd_spec Mem.ramp 0 4 2 (by decide)).2 1 (by decide)).trans
      (by norm_num [Mem.ramp])⟩

/-- C14: `mat2_subtract` leaves `dst_old[i] - b[i]` in every element `i` of
`dst`: `b` is subtracted from `dst`. -/
theorem mat2_subtract_spec {α : Type} [Field α] (dst b : Mat2 α) :
    ∀ i : Fin 4, (mat2_subtract dst b).1.get i = dst.get i - b.get i := by
  intro i
  fin_cases i <;> rfl

/-- C15: `mat2_add` leaves `dst_old[i] + b[i]` in every element `i` of `dst`. -/
theorem mat2_add_spec {α : Type} [Field α] (dst b : Mat2 α) :
    ∀ i : Fin 4, (mat2_add dst b).1.get i = dst.get i + b.get i := by
  intro i
  fin_cases i <;> rfl

/-- C16: called on a memory in which the operand does not overlap `dst`, each
of `mat2_copy`, `mat2_multiply`, `mat2_add`, `mat2_subtract`,
`mat2_multiplyScalarAndAdd` and `mat2_scale` changes no cell outside the four of
`dst`, so the operand holds what it held, and the new contents of `dst` and of
the operand are what the function on contents gives from the contents of `dst`
and of the operand before the call. -/
theorem two_operand_frame {α : Type} [Field α] (mem : Mem α) (dst op v : Nat)
    (scale : α) (h : op + 4 ≤ dst ∨ dst + 4 ≤ op) (hv : v + 2 ≤ dst ∨ dst + 4 ≤ v) :
    (Mem.WritesOnly mem (Heap.mat2_copy mem dst op) dst ∧
      mat2_copy (mem.load4 dst) (mem.load4 op)
        = ((Heap.mat2_copy mem dst op).load4 dst, (Heap.mat2_copy mem dst op).load4 op)) ∧
    (Mem.WritesOnly mem (Heap.mat2_multiply mem dst op) dst ∧
      mat2_multiply (mem.load4 dst) (mem.load4 op)
        = ((Heap.mat2_multiply mem dst op).load4 dst,
            (Heap.mat2_multiply mem dst op).load4 op)) ∧
    (Mem.WritesOnly mem (Heap.mat2_add mem dst op) dst ∧
      mat2_add (mem.load4 dst) (mem.load4 op)
        = ((Heap.mat2_add mem dst op).load4 dst, (Heap.mat2_add mem dst op).load4 op)) ∧
    (Mem.WritesOnly mem (Heap.mat2_subtract mem dst op) dst ∧
      mat2_subtract (mem.load4 dst) (mem.load4 op)
        = ((Heap.mat2_subtract mem dst op).load4 dst,
            (Heap.mat2_subtract mem dst op).load4 op)) ∧
    (Mem.WritesOnly mem (Heap.mat2_multiplyScalarAndAdd mem dst op scale) dst ∧
      mat2_multiplyScalarAndAdd (mem.load4 dst) (mem.load4 op) scale
        = ((Heap.mat2_multiplyScalarAndAdd mem dst op scale).load4 dst,
            (Heap.mat2_multiplyScalarAndAdd mem dst op scale).load4 op)) ∧
    (Mem.WritesOnly mem (Heap.mat2_scale mem dst v) dst ∧
      mat2_scale (mem.load4 dst) (mem.load2 v)
        = ((Heap.mat2_scale mem dst v).load4 dst, (Heap.mat2_scale mem dst v).load2 v)) := by
  refine ⟨⟨?_, ?_⟩, ⟨?_, ?_⟩, ⟨?_, ?_⟩, ⟨?_, ?_⟩, ⟨?_, ?_⟩, ⟨?_, ?_⟩⟩
  · intro a ha
    simp (disch := omega) only [Heap.mat2_copy, Mem.write_other]
  · simp (disch := omega) only [Heap.mat2_copy, Mem.load4, Mem.write_same, Mem.write_other]
    rfl
  · intro a ha
    simp (disch := omega) only [Heap.mat2_multiply, Mem.write_other]
  · simp (disch := omega) only [Heap.mat2_multiply, Mem.load4, Mem.write_same,
      Mem.write_other]
    rfl
  · intro a ha
    simp (disch := omega) only [Heap.mat2_add, Mem.write_other]
  · simp (disch := omega) only [Heap.mat2_add, Mem.load4, Mem.write_same, Mem.write_other]
    rfl
  · intro a ha
    simp (disch := omega) only [Heap.mat2_subtract, Mem.write_other]
  · simp (disch := omega) only [Heap.mat2_subtract, Mem.load4, Mem.write_same,
      Mem.write_other]
    rfl
  · intro a ha
    simp (disch := omega) only [Heap.mat2_multiplyScalarAndAdd, Mem.write_other]
  · simp (disch := omega) only [Heap.mat2_multiplyScalarAndAdd, Mem.load4, Mem.write_same,
      Mem.write_other]
    rfl
  · intro a ha
    simp (disch := omega) only [Heap.mat2_scale, Mem.write_other]
  · simp (disch := omega) only [Heap.mat2_scale, Mem.load4, Mem.load2, Mem.write_same,
      Mem.write_other]
    rfl

/-- On the memory whose cell `a` holds `a`, with `dst` at `0` and the operand at
`4`, `mat2_add` changes no cell from `4` on, and leaves `[4, 6, 8, 10]` in `dst`
and `[4, 5, 6, 7]` in the operand. -/
theorem two_operand_frame_witness :
    (4 + 4 ≤ 0 ∨ 0 + 4 ≤ 4) ∧ (4 + 2 ≤ 0 ∨ 0 + 4 ≤ 4) ∧
    Mem.WritesOnly Mem.ramp (Heap.mat2_add Mem.ramp 0 4) 0 ∧
    ((Heap.mat2_add Mem.ramp 0 4).load4 0, (Heap.mat2_add Mem.ramp 0 4).load4 4)
      = ((⟨4, 6, 8, 10⟩ : Mat2 ℚ), (⟨4, 5, 6, 7⟩ : Mat2 ℚ)) :=
  ⟨by decide, by decide,
    (two_operand_frame Mem.ramp 0 4 4 2 (by decide) (by decide)).2.2.1.1,
    (two_operand_frame Mem.ramp 0 4 4 2 (by decide) (by decide)).2.2.1.2.symm.trans
      (by norm_num [mat2_add, Mem.load4, Mem.ramp, Mat2.get, Mat2.set])⟩

/-- C17: `mat2_fromRotation` leaves `[cos rad, sin rad, -sin rad, cos rad]`
whatever its buffer held, and `mat2_rotate(M, rad)` leaves in `M` what
`mat2_multiply(M, R)` leaves for that `R`. -/
theorem mat2_rotate_eq_multiply_fromRotation {α : Type} [Field α]
    (sinf cosf : α → α) (M R : Mat2 α) (rad : α) :
    mat2_fromRotation sinf cosf R rad = ⟨cosf rad, sinf rad, -sinf rad, cosf rad⟩ ∧
    mat2_rotate sinf cosf M rad
      = (mat2_multiply M (mat2_fromRotation sinf cosf R rad)).1 :=
  ⟨rfl, rfl⟩

/-- C18, as stated, fails on `float`s: on the buffer `[1, 2, inf, 4]` with
`v = [2, 3]`, `mat2_scale` leaves `[2, 4, inf, 12]` while `mat2_multiply` by
`mat2_fromScaling(v) = [2, 0, 0, 3]` leaves `[NaN, 4, inf, 12]`: element 0 is
`1*2 + inf*0`. -/
theorem mat2_scale_vs_multiply_infinite_entry :
    (mat2_scale (⟨.fin 1, .fin 2, .pinf, .fin 4⟩ : Mat2 Flt) ⟨.fin 2, .fin 3⟩).1
      = ⟨.fin 2, .fin 4, .pinf, .fin 12⟩ ∧
    (mat2_fromScaling (⟨0, 0, 0, 0⟩ : Mat2 Flt) ⟨.fin 2, .fin 3⟩).1
      = ⟨.fin 2, .fin 0, .fin 0, .fin 3⟩ ∧
    (mat2_multiply (⟨.fin 1, .fin 2, .pinf, .fin 4⟩ : Mat2 Flt)
        (mat2_fromScaling (⟨0, 0, 0, 0⟩ : Mat2 Flt) ⟨.fin 2, .fin 3⟩).1).1
      = ⟨.nan, .fin 4, .pinf, .fin 12⟩ := by
  refine ⟨?_, rfl, ?_⟩ <;>
    norm_num [mat2_scale, mat2_multiply, mat2_fromScaling, Mat2.get, Mat2.set, Vec2.get,
      Flt.zero_def, Flt.one_def, Flt.mul_def, Flt.add_def, Flt.mul, Flt.add, Flt.isNan,
      Flt.isInf, Flt.isZero, Flt.signBit, Flt.toRat, Flt.round, Flt.inf, Flt.overflowAt]

/-- C18, amended: `mat2_fromScaling` leaves `[v0, 0, 0, v1]` whatever its buffer
held, and `mat2_scale(M, v)` leaves column 0 of `M` times `v0`, column 1 times
`v1`.  For exact scalars that is the buffer `mat2_multiply(M, S)` leaves for
that `S`; for `float`s, when the elements of `M` and `v` are finite, every
element `mat2_scale` leaves compares equal (`==`) to the one `mat2_multiply`
leaves. -/
theorem mat2_scale_eq_multiply_fromScaling {α : Type} [Field α]
    (M S : Mat2 α) (v : Vec2 α) (N T : Mat2 Flt) (w : Vec2 Flt)
    (hN : ∀ i : Fin 4, (N.get i).Finite) (hw : ∀ i : Fin 2, (w.get i).Finite) :
    ((mat2_fromScaling S v).1 = ⟨v.get 0, 0, 0, v.get 1⟩ ∧
      (mat2_scale M v).1 = (mat2_multiply M (mat2_fromScaling S v).1).1 ∧
      (mat2_scale M v).1
        = ⟨M.get 0 * v.get 0, M.get 1 * v.get 0, M.get 2 * v.get 1, M.get 3 * v.get 1⟩) ∧
    ((mat2_fromScaling T w).1 = ⟨w.get 0, 0, 0, w.get 1⟩ ∧
      (mat2_scale N w).1
        = ⟨N.get 0 * w.get 0, N.get 1 * w.get 0, N.get 2 * w.get 1, N.get 3 * w.get 1⟩ ∧
      ∀ i : Fin 4, FloatEq.feq ((mat2_scale N w).1.get i)
        ((mat2_multiply N (mat2_fromScaling T w).1).1.get i) = true) := by
  refine ⟨⟨rfl, ?_, rfl⟩, rfl, rfl, ?_⟩
  · simp only [mat2_scale, mat2_multiply, mat2_fromScaling, Mat2.get, Mat2.set, Mat2.mk.injEq]
    refine ⟨?_, ?_, ?_, ?_⟩ <;> ring
  · intro i
    fin_cases i
    · exact (Flt.feq_add_zero _ _ (Flt.isZero_mul_zero _ (hN 2)).1
        (Flt.mul_finite _ _ (hN 0) (hw 0))).2.2.1
    · exact (Flt.feq_add_zero _ _ (Flt.isZero_mul_zero _ (hN 3)).1
        (Flt.mul_finite _ _ (hN 1) (hw 0))).2.2.1
    · exact (Flt.feq_add_zero _ _ (Flt.isZero_mul_zero _ (hN 0)).1
        (Flt.mul_finite _ _ (hN 2) (hw 1))).2.2.2
    · exact (Flt.feq_add_zero _ _ (Flt.isZero_mul_zero _ (hN 1)).1
        (Flt.mul_finite _ _ (hN 3) (hw 1))).2.2.2

/-- On the finite buffer `[-0.0, 2, 3, 4]` with `v = [2, 3]`, every element
`mat2_scale` leaves compares equal to the one `mat2_multiply` by
`mat2_fromScaling(v)` leaves. -/
theorem mat2_scale_eq_multiply_fromScaling_witness :
    (∀ i : Fin 4, ((⟨.nzero, .fin 2, .fin 3, .fin 4⟩ : Mat2 Flt).get i).Finite) ∧
    (∀ i : Fin 2, ((⟨.fin 2, .fin 3⟩ : Vec2 Flt).get i).Finite) ∧
    ∀ i : Fin 4, FloatEq.feq
      ((mat2_scale (⟨.nzero, .fin 2, .fin 3, .fin 4⟩ : Mat2 Flt) ⟨.fin 2, .fin 3⟩).1.get i)
      ((mat2_multiply (⟨.nzero, .fin 2, .fin 3, .fin 4⟩ : Mat2 Flt)
        (mat2_fromScaling (⟨0, 0, 0, 0⟩ : Mat2 Flt) ⟨.fin 2, .fin 3⟩).1).1.get i) = true :=
  ⟨fun i => by fin_cases i <;> norm_num [Mat2.get, Flt.Finite, Flt.overflowAt],
    fun i => by fin_cases i <;> norm_num [Vec2.get, Flt.Finite, Flt.overflowAt],
    (mat2_scale_eq_multiply_fromScaling (⟨1, 2, 3, 4⟩ : Mat2 ℚ) ⟨0, 0, 0, 0⟩ ⟨2, 3⟩
      ⟨.nzero, .fin 2, .fin 3, .fin 4⟩ ⟨0, 0, 0, 0⟩ ⟨.fin 2, .fin 3⟩
      (fun i => by fin_cases i <;> norm_num [Mat2.get, Flt.Finite, Flt.overflowAt])
      (fun i => by fin_cases i <;> norm_num [Vec2.get, Flt.Finite, Flt.overflowAt])).2.2.2⟩

/-- C19: when the determinant `d` is not zero, `mat2_invert` leaves the buffer
that `mat2_adjoint` followed by `mat2_multiplyScalar` with `1/d` leaves. -/
theorem mat2_invert_eq_scaled_adjoint {α : Type} [Field α] [DecidableEq α]
    (M : Mat2 α) (h : (mat2_determinant M).1 ≠ 0) :
    mat2_invert M = mat2_multiplyScalar (mat2_adjoint M) (1 / (mat2_determinant M).1) := by
  have hd : ¬ (M.get 0 * M.get 3 - M.get 2 * M.get 1 = 0) := h
  simp only [mat2_invert, if_neg hd]
  rfl

/-- The matrix `[1, 2, 3, 4]` has determinant `-2`, and its inverse is its
adjugate times `1 / -2`. -/
theorem mat2_invert_eq_scaled_adjoint_witness :
    (mat2_determinant (⟨1, 2, 3, 4⟩ : Mat2 ℚ)).1 ≠ 0 ∧
    mat2_invert (⟨1, 2, 3, 4⟩ : Mat2 ℚ)
      = mat2_multiplyScalar (mat2_adjoint ⟨1, 2, 3, 4⟩)
          (1 / (mat2_determinant (⟨1, 2, 3, 4⟩ : Mat2 ℚ)).1) :=
  ⟨by norm_num [mat2_determinant, Mat2.get],
    mat2_invert_eq_scaled_adjoint _ (by norm_num [mat2_determinant, Mat2.get])⟩

/-- C20: `mat2_identity` sets the elements at index 0 and 3 to `1` and leaves
those at index 1 and 2 as they were, so the buffer after the call is
`[1, 0, 0, 1]` exactly when those two were `0` before it. -/
theorem mat2_identity_frame {α : Type} [Field α] (dst : Mat2 α) :
    (mat2_identity dst).get 0 = 1 ∧ (mat2_identity dst).get 3 = 1 ∧
    (mat2_identity dst).get 1 = dst.get 1 ∧ (mat2_identity dst).get 2 = dst.get 2 ∧
    (mat2_identity dst = ⟨1, 0, 0, 1⟩ ↔ dst.get 1 = 0 ∧ dst.get 2 = 0) := by
  refine ⟨rfl, rfl, rfl, rfl, ?_⟩
  simp [mat2_identity, Mat2.get, Mat2.set]

/-- C21: the determinant is multiplicative over `mat2_multiply`: the
determinant of the buffer `mat2_multiply(A, B)` leaves in `A` is the product of
the determinants of `A` and `B` before the call. -/
theorem mat2_determinant_multiply {α : Type} [Field α] (A B : Mat2 α) :
    (mat2_determinant (mat2_multiply A B).1).1
      = (mat2_determinant A).1 * (mat2_determinant B).1 := by
  obtain ⟨a0, a1, a2, a3⟩ := A
  obtain ⟨b0, b1, b2, b3⟩ := B
  simp only [mat2_determinant, mat2_multiply, Mat2.get, Mat2.set]
  ring

/-- C22: `mat2_multiply` is associative: multiplying `A` by `B` and the result
by `C` leaves the buffer that multiplying `A` by the result of
`mat2_multiply(B, C)` leaves. -/
theorem mat2_multiply_assoc {α : Type} [Field α] (A B C : Mat2 α) :
    (mat2_multiply (mat2_multiply A B).1 C).1
      = (mat2_multiply A (mat2_multiply B C).1).1 := by
  obtain ⟨a0, a1, a2, a3⟩ := A
  obtain ⟨b0, b1, b2, b3⟩ := B
  obtain ⟨c0, c1, c2, c3⟩ := C
  simp only [mat2_multiply, Mat2.get, Mat2.set, Mat2.mk.injEq]
  refine ⟨?_, ?_, ?_, ?_⟩ <;> ring

/-- C23, as stated, fails on `float`s: `mat2_multiply` of `[inf, 2, 3, 4]` by
`[1, 0, 0, 1]` leaves `[inf, 2, NaN, 4]`: element 2 is `inf*0 + 3*1`. -/
theorem mat2_multiply_identity_infinite_entry :
    (mat2_multiply (⟨.pinf, .fin 2, .fin 3, .fin 4⟩ : Mat2 Flt) ⟨1, 0, 0, 1⟩).1
      = ⟨.pinf, .fin 2, .nan, .fin 4⟩ ∧
    (mat2_multiply (⟨.pinf, .fin 2, .fin 3, .fin 4⟩ : Mat2 Flt) ⟨1, 0, 0, 1⟩).1
      ≠ ⟨.pinf, .fin 2, .fin 3, .fin 4⟩ := by
  have h : (mat2_multiply (⟨.pinf, .fin 2, .fin 3, .fin 4⟩ : Mat2 Flt) ⟨1, 0, 0, 1⟩).1
      = ⟨.pinf, .fin 2, .nan, .fin 4⟩ := by
    norm_num [mat2_multiply, Mat2.get, Mat2.set, Flt.zero_def, Flt.one_def, Flt.mul_def,
      Flt.add_def, Flt.mul, Flt.add, Flt.isNan, Flt.isInf, Flt.isZero, Flt.signBit,
      Flt.toRat, Flt.round, Flt.inf, Flt.overflowAt]
  refine ⟨h, ?_⟩
  rw [h]
  simp

/-- C23, amended: the buffer `[1, 0, 0, 1]` is neutral for `mat2_multiply` on
both sides.  For exact scalars `mat2_multiply(M, [1,0,0,1])` leaves `M` as it
was and `mat2_multiply([1,0,0,1], M)` leaves `M` in the destination; for
`float`s, when the elements of `M` are finite, every element left in the
destination compares equal (`==`) to the element of `M`.  The operand is left
as it was in every call. -/
theorem mat2_multiply_identity_neutral {α : Type} [Field α] (M : Mat2 α) (N : Mat2 Flt)
    (hN : ∀ i : Fin 4, (N.get i).Finite) :
    (mat2_multiply M ⟨1, 0, 0, 1⟩ = (M, ⟨1, 0, 0, 1⟩) ∧
      mat2_multiply ⟨1, 0, 0, 1⟩ M = (M, M)) ∧
    ((∀ i : Fin 4, FloatEq.feq ((mat2_multiply N ⟨1, 0, 0, 1⟩).1.get i) (N.get i) = true) ∧
      (∀ i : Fin 4, FloatEq.feq ((mat2_multiply ⟨1, 0, 0, 1⟩ N).1.get i) (N.get i) = true) ∧
      (mat2_multiply N ⟨1, 0, 0, 1⟩).2 = ⟨1, 0, 0, 1⟩ ∧
      (mat2_multiply ⟨1, 0, 0, 1⟩ N).2 = N) := by
  refine ⟨?_, ?_, ?_, rfl, rfl⟩
  · obtain ⟨a0, a1, a2, a3⟩ := M
    constructor <;> simp [mat2_multiply, Mat2.get, Mat2.set]
  · intro i
    fin_cases i
    · show FloatEq.feq (N.get 0 * 1 + N.get 2 * 0) (N.get 0) = true
      rw [(Flt.mul_one_finite _ (hN 0)).1]
      exact (Flt.feq_add_zero _ _ (Flt.isZero_mul_zero _ (hN 2)).1 (Or.inr (hN 0))).1
    · show FloatEq.feq (N.get 1 * 1 + N.get 3 * 0) (N.get 1) = true
      rw [(Flt.mul_one_finite _ (hN 1)).1]
      exact (Flt.feq_add_zero _ _ (Flt.isZero_mul_zero _ (hN 3)).1 (Or.inr (hN 1))).1
    · show FloatEq.feq (N.get 0 * 0 + N.get 2 * 1) (N.get 2) = true
      rw [(Flt.mul_one_finite _ (hN 2)).1]
      exact (Flt.feq_add_zero _ _ (Flt.isZero_mul_zero _ (hN 0)).1 (Or.inr (hN 2))).2.1
    · show FloatEq.feq (N.get 1 * 0 + N.get 3 * 1) (N.get 3) = true
      rw [(Flt.mul_one_finite _ (hN 3)).1]
      exact (Flt.feq_add_zero _ _ (Flt.isZero_mul_zero _ (hN 1)).1 (Or.inr (hN 3))).2.1
  · intro i
    fin_cases i
    · show FloatEq.feq (1 * N.get 0 + 0 * N.get 1) (N.get 0) = true
      rw [(Flt.mul_one_finite _ (hN 0)).2]
      exact (Flt.feq_add_zero _ _ (Flt.isZero_mul_zero _ (hN 1)).2 (Or.inr (hN 0))).1
    · show FloatEq.feq (0 * N.get 0 + 1 * N.get 1) (N.get 1) = true
      rw [(Flt.mul_one_finite _ (hN 1)).2]
      exact (Flt.feq_add_zero _ _ (Flt.isZero_mul_zero _ (hN 0)).2 (Or.inr (hN 1))).2.1
    · show FloatEq.feq (1 * N.get 2 + 0 * N.get 3) (N.get 2) = true
      rw [(Flt.mul_one_finite _ (hN 2)).2]
      exact (Flt.feq_add_zero _ _ (Flt.isZero_mul_zero _ (hN 3)).2 (Or.inr (hN 2))).1
    · show FloatEq.feq (0 * N.get 2 + 1 * N.get 3) (N.get 3) = true
      rw [(Flt.mul_one_finite _ (hN 3)).2]
      exact (Flt.feq_add_zero _ _ (Flt.isZero_mul_zero _ (hN 2)).2 (Or.inr (hN 3))).2.1

/-- On the finite buffer `[-0.0, 2, 3, 4]`, every element `mat2_multiply` by
`[1, 0, 0, 1]` leaves compares equal to the element it replaces. -/
theorem mat2_multiply_identity_neutral_witness :
    (∀ i : Fin 4, ((⟨.nzero, .fin 2, .fin 3, .fin 4⟩ : Mat2 Flt).get i).Finite) ∧
    ∀ i : Fin 4, FloatEq.feq
      ((mat2_multiply (⟨.nzero, .fin 2, .fin 3, .fin 4⟩ : Mat2 Flt) ⟨1, 0, 0, 1⟩).1.get i)
      ((⟨.nzero, .fin 2, .fin 3, .fin 4⟩ : Mat2 Flt).get i) = true :=
  ⟨fun i => by fin_cases i <;> norm_num [Mat2.get, Flt.Finite, Flt.overflowAt],
    (mat2_multiply_identity_neutral (⟨1, 2, 3, 4⟩ : Mat2 ℚ) ⟨.nzero, .fin 2, .fin 3, .fin 4⟩
      (fun i => by fin_cases i <;> norm_num [Mat2.get, Flt.Finite, Flt.overflowAt])).2.1⟩

end GlMatrix
